import Mathlib

/-!
Verification of the Sudoku core engine (grid generation, solving, uniqueness
counting, carving, hint selection) of the repository.

The source is TypeScript; we embed it shallowly:
* a `SudokuGrid` (a 9×9 array of numbers, 0 = empty cell) becomes a
  `List (List Nat)`; reads are `getD` with default 0 and writes are `List.set`,
  which agree with the JavaScript semantics on the well-shaped 9×9 grids the
  program builds (`createEmptyBoard` and copies of it);
* in-place mutation becomes explicit state passing: every function that
  mutates a grid takes it and returns the updated one;
* `Math.random`-driven shuffles (`shuffleArray`) take an explicit tape of
  drawn indices: the tape entry for step `i` is reduced `% (i + 1)`, mirroring
  `Math.floor(Math.random() * (i + 1)) ∈ [0, i]`.  Theorems quantify over all
  tapes, hence over every sequence of random draws the program can see;
* for the backtracking solver, the per-invocation shuffle is drawn from a
  function of the current grid.  Within a single run of `solveSudoku` two
  distinct invocations always hold different grids (the first divergence
  between two call-tree nodes fixes a cell to two different values throughout
  the corresponding subtrees), so a grid-indexed choice function reproduces
  every possible trace of the original program;
* thrown `Error`s become `Except` values.
-/

/-- A Sudoku grid: rows of cells, cell value 0 means empty (`EMPTY_CELL`). -/
abbrev SudokuGrid := List (List Nat)

/-- Reading `grid[row][col]` (JavaScript index read; 0 outside the grid). -/
def getCell (g : SudokuGrid) (row col : Nat) : Nat :=
  (g.getD row []).getD col 0

/-- Writing `grid[row][col] = v` (no-op outside the allocated grid, which the
program never does on its well-shaped 9×9 grids). -/
def setCell (g : SudokuGrid) (row col v : Nat) : SudokuGrid :=
  g.set row ((g.getD row []).set col v)

/-- Source `createEmptyBoard`: a 9×9 board of `EMPTY_CELL`s. -/
def createEmptyBoard : SudokuGrid :=
  List.replicate 9 (List.replicate 9 0)

/-- Source `deepCopyGrid`.  In the pure embedding a deep copy is the value
itself. -/
def deepCopyGrid (g : SudokuGrid) : SudokuGrid := g

/-- All 81 cell positions in row-major order, as the nested
`for (row …) for (col …)` loops enumerate them. -/
def allPositions : List (Nat × Nat) :=
  (List.range 9).flatMap (fun r => (List.range 9).map (fun c => (r, c)))

/-- The candidate digits `[1, …, 9]`. -/
def digits : List Nat := [1, 2, 3, 4, 5, 6, 7, 8, 9]

/-- Source `isSafe` (sudokuValidator): `num` (or the empty marker) does not
occur in the row, the column, or the containing 3×3 box. -/
def isSafe (g : SudokuGrid) (row col num : Nat) : Bool :=
  if num = 0 then true
  else if (List.range 9).any (fun x => getCell g row x == num) then false
  else if (List.range 9).any (fun x => getCell g x col == num) then false
  else
    let startRow := row - row % 3
    let startCol := col - col % 3
    !((List.range 3).any (fun i =>
      (List.range 3).any (fun j =>
        getCell g (startRow + i) (startCol + j) == num)))

/-- Source `findEmptyCells`: all empty positions in row-major order. -/
def findEmptyCells (g : SudokuGrid) : List (Nat × Nat) :=
  allPositions.filter (fun p => getCell g p.1 p.2 == 0)

/-- The row-major scan for the first empty cell, shared by `solveSudoku` and
`countSolutions`. -/
def findFirstEmpty (g : SudokuGrid) : Option (Nat × Nat) :=
  allPositions.find? (fun p => getCell g p.1 p.2 == 0)

/-- Source `ValidationResult`.  The `Set<ConflictKey>` of `"row-col"` strings
becomes the list of conflicting positions in scan order (the scan visits each
position once, so the list has no duplicates and is an exact model of the
set). -/
structure ValidationResult where
  isValid : Bool
  conflicts : List (Nat × Nat)
deriving Repr, DecidableEq

/-- Source `validateBoard`: each filled cell is temporarily cleared and
re-tested with `isSafe`; unsafe cells are conflicts.  The source's in-place
clear/restore leaves the grid unchanged between iterations, so each test reads
the original grid with only the probed cell cleared.  `isValid` is set to
`false` exactly when some conflict is recorded. -/
def validateBoard (g : SudokuGrid) : ValidationResult :=
  let conflicts := allPositions.filter (fun p =>
    getCell g p.1 p.2 != 0 &&
      !(isSafe (setCell g p.1 p.2 0) p.1 p.2 (getCell g p.1 p.2)))
  { isValid := conflicts.isEmpty, conflicts := conflicts }

/-- Source `isPuzzleComplete`: all cells filled and the board valid. -/
def isPuzzleComplete (g : SudokuGrid) : Bool :=
  (allPositions.all (fun p => getCell g p.1 p.2 != 0)) && (validateBoard g).isValid

/-- One Fisher–Yates swap `[arr[i], arr[j]] = [arr[j], arr[i]]`. -/
def swapAt {α : Type} (l : List α) (i j : Nat) : List α :=
  match l.get? i, l.get? j with
  | some a, some b => (l.set i b).set j a
  | _, _ => l

/-- The Fisher–Yates loop of `shuffleArray`, from index `i` down to 1; the
tape `rands` supplies the random draw for each index. -/
def shuffleGo {α : Type} (rands : Nat → Nat) : Nat → List α → List α
  | 0, l => l
  | i + 1, l => shuffleGo rands i (swapAt l (i + 1) (rands (i + 1) % (i + 2)))

/-- Source `shuffleArray` (Fisher–Yates on a copy), with the random draws
supplied by the tape `rands`. -/
def shuffleArray {α : Type} (rands : Nat → Nat) (l : List α) : List α :=
  shuffleGo rands (l.length - 1) l

/-!
The backtracking solver `solveSudoku(grid, depth)`.  The source recursion is
split into `solveTry` (the `for (const num of numbers)` loop over the shuffled
candidates: place, recurse, and clear the cell again when the recursive call
fails) and `solveGo` (one invocation: depth guard, first-empty scan, shuffle,
loop).  The guard `depth > 1000` is encoded as the structural fuel
`1001 - depth` reaching 0. -/

/-- Candidate loop of `solveSudoku` for the empty cell `(r, c)`: `f` is the
recursive call at depth + 1. -/
def solveTry (f : SudokuGrid → Bool × SudokuGrid) (r c : Nat) :
    List Nat → SudokuGrid → Bool × SudokuGrid
  | [], g => (false, g)
  | n :: ns, g =>
    if isSafe g r c n then
      let res := f (setCell g r c n)
      if res.1 then res
      else solveTry f r c ns (setCell res.2 r c 0)
    else solveTry f r c ns g

/-- One invocation of `solveSudoku`; `rand g` is the random tape for this
invocation's `shuffleArray` (see the module comment: the grid identifies the
invocation inside a run, so a grid-indexed tape covers every trace). -/
def solveGo (rand : SudokuGrid → Nat → Nat) : Nat → SudokuGrid → Bool × SudokuGrid
  | 0, g => (false, g)
  | fuel + 1, g =>
    match findFirstEmpty g with
    | none => (true, g)
    | some (r, c) => solveTry (solveGo rand fuel) r c (shuffleArray (rand g) digits) g

/-- Source `solveSudoku(grid, depth = 0)`: returns the success flag together
with the final state of the (in the source: mutated) grid. -/
def solveSudoku (rand : SudokuGrid → Nat → Nat) (g : SudokuGrid) (depth : Nat := 0) :
    Bool × SudokuGrid :=
  solveGo rand (1001 - depth) g

/-- Source `fillBox`: writes the nine entries of `nums` into the 3×3 box at
`(row, col)` in row-major order (`r = row + k / 3`, `c = col + k % 3`, value
`nums[k]` for the running index `k = 0, …, 8`). -/
def fillBox (g : SudokuGrid) (row col : Nat) (nums : List Nat) : SudokuGrid :=
  (List.range 9).foldl
    (fun acc k => setCell acc (row + k / 3) (col + k % 3) (nums.getD k 0)) g

/-- Source `fillDiagonalBoxes`: boxes at (0,0), (3,3), (6,6), each with its
own `shuffleArray([1..9])` (tape indexed by box number). -/
def fillDiagonalBoxes (diagRand : Nat → Nat → Nat) (g : SudokuGrid) : SudokuGrid :=
  fillBox
    (fillBox
      (fillBox g 0 0 (shuffleArray (diagRand 0) digits))
      3 3 (shuffleArray (diagRand 1) digits))
    6 6 (shuffleArray (diagRand 2) digits)

/-- Source `generateCompleteSudoku`: seed the diagonal boxes, then run the
solver; the solver's boolean result is ignored and the (mutated) grid is
returned as-is. -/
def generateCompleteSudoku (diagRand : Nat → Nat → Nat)
    (solveRand : SudokuGrid → Nat → Nat) : SudokuGrid :=
  (solveGo solveRand 1001 (fillDiagonalBoxes diagRand createEmptyBoard)).2

/-!
The solution counter `countSolutions(grid, maxSolutions = 2)`.  The mutable
`solutionCount` is threaded explicitly; the deterministic candidate loop
`for (num = 1; num <= 9; num++)` is `countTry` over the index `k` (digit
`k + 1`).  The nested recursion is made structural with the fuel
`numEmptyCells grid + 1`: every recursive call is on a grid with one more
filled in-range cell, so the fuel never runs out (the `fuel = 0` branch is
unreachable on the grids the program builds). -/

/-- Number of empty cells, `findEmptyCells(grid).length`. -/
def numEmptyCells (g : SudokuGrid) : Nat := (findEmptyCells g).length

/-- Candidate loop of the counter's inner `solve` at cell `(r, c)`:
`for (num = 1; …; num <= 9)` over the digit list, with the early exit once
the count reaches the cap; `f` is the recursive call (the cell is cleared
again after it, i.e. the original `g` is used for the next digit). -/
def countTry (f : SudokuGrid → Nat → Nat) (maxS r c : Nat) :
    List Nat → SudokuGrid → Nat → Nat
  | [], _, count => count
  | n :: ns, g, count =>
    if isSafe g r c n then
      let count2 := f (setCell g r c n) count
      if maxS ≤ count2 then count2 else countTry f maxS r c ns g count2
    else countTry f maxS r c ns g count

/-- One invocation of the counter's inner `solve`: early exit at the cap,
first-empty scan, complete-solution bump, candidate loop. -/
def countGo (maxS : Nat) : Nat → SudokuGrid → Nat → Nat
  | 0, _, count => count
  | fuel + 1, g, count =>
    if maxS ≤ count then count
    else
      match findFirstEmpty g with
      | none => count + 1
      | some (r, c) => countTry (countGo maxS fuel) maxS r c digits g count

/-- Source `countSolutions(grid, maxSolutions = 2)`. -/
def countSolutions (g : SudokuGrid) (maxS : Nat := 2) : Nat :=
  countGo maxS (numEmptyCells g + 1) (deepCopyGrid g) 0

/-- Source `hasUniqueSolution`: `false` outright below 17 filled cells,
otherwise exactly one solution found by the capped counter. -/
def hasUniqueSolution (g : SudokuGrid) : Bool :=
  let filledCells := 9 * 9 - (findEmptyCells g).length
  if filledCells < 17 then false
  else countSolutions g 2 == 1

/-!
The logic-only checker `isSolvableWithoutGuessing`: repeated scans filling
naked singles (cells with exactly one candidate), failing on a cell with no
candidate, until a scan makes no progress.  A progressing scan fills at least
one empty cell, so `numEmptyCells + 1` scans always suffice; the fuel encodes
the `while (madeProgress)` loop structurally. -/

/-- One full scan of the naked-singles loop over the given positions:
`none` models the `return false` on a zero-candidate cell, otherwise the
updated grid and the `madeProgress` flag. -/
def nakedPass : List (Nat × Nat) → SudokuGrid → Bool → Option (SudokuGrid × Bool)
  | [], g, progress => some (g, progress)
  | p :: rest, g, progress =>
    if getCell g p.1 p.2 == 0 then
      match digits.filter (fun n => isSafe g p.1 p.2 n) with
      | [] => none
      | [v] => nakedPass rest (setCell g p.1 p.2 v) true
      | _ => nakedPass rest g progress
    else nakedPass rest g progress

/-- The `while (madeProgress)` loop; after it, solvable iff no empty cell
remains. -/
def nakedLoop : Nat → SudokuGrid → Bool
  | 0, g => (findEmptyCells g).isEmpty
  | fuel + 1, g =>
    match nakedPass allPositions g false with
    | none => false
    | some (g2, progress) =>
      if progress then nakedLoop fuel g2 else (findEmptyCells g2).isEmpty

/-- Source `isSolvableWithoutGuessing` (works on a deep copy). -/
def isSolvableWithoutGuessing (g : SudokuGrid) : Bool :=
  nakedLoop (numEmptyCells g + 1) (deepCopyGrid g)

/-!
The carver: `removeCells` with its fallback `removeSymmetricCells`.
Randomness: each takes the tape for its own `shuffleArray` call.  The
backup/restore of a probed cell is modelled by continuing with the
pre-removal grid — the source's `puzzle[row][col] = backup` restores exactly
that grid, because the probed cell was in range (its read was nonzero). -/

/-- Positions for the symmetric pass: row-major, skipping the centre (4,4). -/
def symPositions : List (Nat × Nat) :=
  allPositions.filter (fun p => !(p.1 == 4 && p.2 == 4))

/-- Loop of `removeSymmetricCells`: remove a position and its 180°-rotated
partner together, keep the pair removed only if uniqueness still holds. -/
def symLoop (cellsToRemove : Nat) : List (Nat × Nat) → SudokuGrid → Nat → SudokuGrid
  | [], puzzle, _ => puzzle
  | pos :: rest, puzzle, removed =>
    if cellsToRemove ≤ removed then puzzle
    else
      let row := pos.1
      let col := pos.2
      let symRow := 9 - 1 - row
      let symCol := 9 - 1 - col
      if getCell puzzle row col != 0 && getCell puzzle symRow symCol != 0 then
        let puzzle2 := setCell (setCell puzzle row col 0) symRow symCol 0
        if hasUniqueSolution puzzle2 then symLoop cellsToRemove rest puzzle2 (removed + 2)
        else symLoop cellsToRemove rest puzzle removed
      else symLoop cellsToRemove rest puzzle removed

/-- Source `removeSymmetricCells(grid, clues)`. -/
def removeSymmetricCells (g : SudokuGrid) (clues : Nat) (rands : Nat → Nat) : SudokuGrid :=
  let puzzle := deepCopyGrid g
  let cellsToRemove := 9 * 9 - clues
  symLoop cellsToRemove (shuffleArray rands symPositions) puzzle 0

/-- Loop of `removeCells`: probe each position in order; a removal is kept
only if uniqueness holds and (below 32 clues) the puzzle stays solvable by
propagation.  Returns the carved grid and the number of removed cells. -/
def removeLoop (cellsToRemove : Nat) :
    List (Nat × Nat) → SudokuGrid → Nat → Nat → SudokuGrid × Nat
  | [], puzzle, removed, _ => (puzzle, removed)
  | pos :: rest, puzzle, removed, attempts =>
    if cellsToRemove ≤ removed || 9 * 9 * 2 ≤ attempts then (puzzle, removed)
    else
      if getCell puzzle pos.1 pos.2 != 0 then
        let puzzle2 := setCell puzzle pos.1 pos.2 0
        if hasUniqueSolution puzzle2 then
          let currentClues := 9 * 9 - removed - 1
          if 32 ≤ currentClues || isSolvableWithoutGuessing puzzle2 then
            removeLoop cellsToRemove rest puzzle2 (removed + 1) (attempts + 1)
          else removeLoop cellsToRemove rest puzzle removed (attempts + 1)
        else removeLoop cellsToRemove rest puzzle removed (attempts + 1)
      else removeLoop cellsToRemove rest puzzle removed (attempts + 1)

/-- Source `removeCells(grid, clues)`: random-order removal pass, then the
symmetric fallback on the original grid if the target was not reached. -/
def removeCells (g : SudokuGrid) (clues : Nat) (posRands symRands : Nat → Nat) : SudokuGrid :=
  let puzzle := deepCopyGrid g
  let cellsToRemove := 9 * 9 - clues
  let result := removeLoop cellsToRemove (shuffleArray posRands allPositions) puzzle 0 0
  if result.2 < cellsToRemove then removeSymmetricCells g clues symRands
  else result.1

/-!
The generation orchestrator `generatePuzzle(difficulty, maxRetries = 3)`. -/

/-- One entry of `DIFFICULTY_CONFIGS` (constants module). -/
structure DifficultyConfig where
  name : String
  label : String
  clues : Nat
  maxHints : Nat
  description : String
deriving Repr, DecidableEq

/-- Source `DIFFICULTY_CONFIGS` record; `none` models the `undefined` lookup
for an unrecognized difficulty name. -/
def DIFFICULTY_CONFIGS : String → Option DifficultyConfig := fun d =>
  if d = "easy" then some ⟨"easy", "Easy", 45, 5, "Perfect for beginners"⟩
  else if d = "medium" then some ⟨"medium", "Medium", 35, 3, "Moderate challenge"⟩
  else if d = "hard" then some ⟨"hard", "Hard", 28, 2, "For experienced players"⟩
  else if d = "expert" then some ⟨"expert", "Expert", 22, 1, "Ultimate challenge"⟩
  else none

/-- The random sources one generation attempt consumes. -/
structure GenTape where
  diagRand : Nat → Nat → Nat
  solveRand : SudokuGrid → Nat → Nat
  posRand : Nat → Nat
  symRand : Nat → Nat

/-- The terminal error thrown after all attempts fail: its message carries the
difficulty, the attempt count and the last underlying cause. -/
structure GenFailure where
  difficulty : String
  attempts : Nat
  lastMessage : String
deriving Repr, DecidableEq

/-- Body of one `try` block of `generatePuzzle`: build a complete solution,
look up the difficulty, carve.  The source's `if (!puzzle || !solution)`
guard is omitted: grids are arrays, hence always truthy. -/
def generateAttempt (t : GenTape) (difficulty : String) :
    Except String (SudokuGrid × SudokuGrid) :=
  let solution := generateCompleteSudoku t.diagRand t.solveRand
  match DIFFICULTY_CONFIGS difficulty with
  | none => .error ("Invalid difficulty level: " ++ difficulty)
  | some config =>
    let puzzle := removeCells solution config.clues t.posRand t.symRand
    .ok (deepCopyGrid puzzle, deepCopyGrid solution)

/-- The retry loop `for (attempt = 1; attempt <= maxRetries; attempt++)`:
`rem` counts the attempts still allowed; when it reaches 0 the terminal error
is thrown with the last recorded cause (`'Unknown error'` if none). -/
def generateLoop (tapes : Nat → GenTape) (difficulty : String) (maxRetries : Nat) :
    Nat → Nat → Option String → Except GenFailure (SudokuGrid × SudokuGrid)
  | 0, _, lastError => .error ⟨difficulty, maxRetries, lastError.getD "Unknown error"⟩
  | rem + 1, attempt, _lastError =>
    match generateAttempt (tapes attempt) difficulty with
    | .ok r => .ok r
    | .error e => generateLoop tapes difficulty maxRetries rem (attempt + 1) (some e)

/-- Source `generatePuzzle(difficulty, maxRetries = 3)`; `tapes n` is the
randomness consumed by attempt `n`. -/
def generatePuzzle (tapes : Nat → GenTape) (difficulty : String) (maxRetries : Nat := 3) :
    Except GenFailure (SudokuGrid × SudokuGrid) :=
  generateLoop tapes difficulty maxRetries maxRetries 1 none

/-!
The hint selector `getHint(currentGrid, solution)`. -/

/-- An empty cell paired with its number of possibilities. -/
abbrev HintCell := (Nat × Nat) × Nat

/-- The hint returned to the caller. -/
structure Hint where
  row : Nat
  col : Nat
  value : Nat
deriving Repr, DecidableEq

/-- Stable insertion of a cell into a list sorted by possibility count:
existing cells with an equal or smaller count stay in front. -/
def insertByPoss (x : HintCell) : List HintCell → List HintCell
  | [] => [x]
  | y :: ys => if x.2 < y.2 then x :: y :: ys else y :: insertByPoss x ys

/-- The source's `sort((a, b) => a.possibilities - b.possibilities)`:
a stable ascending sort (`Array.prototype.sort` is stable), modelled as a
stable insertion sort processing the list in its original order. -/
def sortByPoss (l : List HintCell) : List HintCell :=
  l.foldl (fun acc x => insertByPoss x acc) []

/-- Source `getHint`: `null` when no cell is empty; otherwise the first cell
of the possibility-sorted empty cells, paired with the solution's value
there. -/
def getHint (currentGrid solution : SudokuGrid) : Option Hint :=
  let emptyCells := findEmptyCells currentGrid
  if emptyCells.isEmpty then none
  else
    let cellsWithPossibilities := emptyCells.map (fun cell =>
      (cell, (digits.filter (fun n => isSafe currentGrid cell.1 cell.2 n)).length))
    match sortByPoss cellsWithPossibilities with
    | [] => none
    | hintCell :: _ =>
      some ⟨hintCell.1.1, hintCell.1.2, getCell solution hintCell.1.1 hintCell.1.2⟩

/-!
Spec-side reference definitions (written from the specification's words, to
be compared with the source-derived functions above). -/

/-- First element attaining the minimal possibility count: on a tie the
earlier element wins, so this is the first minimum in encounter order. -/
def firstMinPoss : List HintCell → Option HintCell
  | [] => none
  | x :: xs =>
    match firstMinPoss xs with
    | none => some x
    | some m => if x.2 ≤ m.2 then some x else some m

/-- Modelled from the spec (`selectHint`, §4.8): none when no empty cells
remain; otherwise the empty cell (row-major encounter order) with the minimum
`possibleValues` count, ties broken by the first minimum found, paired with
`solution[row][col]`. -/
def selectHintSpec (currentGrid solution : SudokuGrid) : Option Hint :=
  let emptyCells := findEmptyCells currentGrid
  let cellsWithPossibilities := emptyCells.map (fun cell =>
    (cell, (digits.filter (fun n => isSafe currentGrid cell.1 cell.2 n)).length))
  match firstMinPoss cellsWithPossibilities with
  | none => none
  | some m => some ⟨m.1.1, m.1.2, getCell solution m.1.1 m.1.2⟩

/-- Spec-side conflict predicate (§4.1): a filled position whose value also
occurs in some other cell of the same row, column, or 3×3 box. -/
def conflictSpec (g : SudokuGrid) (r c : Nat) : Prop :=
  getCell g r c ≠ 0 ∧
  ((∃ x, x < 9 ∧ x ≠ c ∧ getCell g r x = getCell g r c) ∨
   (∃ x, x < 9 ∧ x ≠ r ∧ getCell g x c = getCell g r c) ∨
   (∃ i j, i < 3 ∧ j < 3 ∧ (r - r % 3 + i ≠ r ∨ c - c % 3 + j ≠ c) ∧
     getCell g (r - r % 3 + i) (c - c % 3 + j) = getCell g r c))

/-- Well-formedness of a successful generation result: every clue of the
puzzle agrees with the solution grid. -/
def puzzleMatchesSolution : Except GenFailure (SudokuGrid × SudokuGrid) → Prop
  | .ok pair => ∀ r c, getCell pair.1 r c = 0 ∨ getCell pair.1 r c = getCell pair.2 r c
  | .error _ => True

/-- A fixed complete valid solution grid (used by concrete scenarios and
witnesses). -/
def solvedGrid : SudokuGrid :=
  [[5, 3, 4, 6, 7, 8, 9, 1, 2],
   [6, 7, 2, 1, 9, 5, 3, 4, 8],
   [1, 9, 8, 3, 4, 2, 5, 6, 7],
   [8, 5, 9, 7, 6, 1, 4, 2, 3],
   [4, 2, 6, 8, 5, 3, 7, 9, 1],
   [7, 1, 3, 9, 2, 4, 8, 5, 6],
   [9, 6, 1, 5, 3, 7, 2, 8, 4],
   [2, 8, 7, 4, 1, 9, 6, 3, 5],
   [3, 4, 5, 2, 8, 6, 1, 7, 9]]

/-- An unsolvable grid: the search places 1 at (0,0), fails at (0,1),
restores, and fails overall. -/
def failGrid : SudokuGrid :=
  [[0, 0, 3, 4, 5, 6, 7, 8, 9],
   [0, 2, 0, 0, 0, 0, 0, 0, 0]]

/-- Every cell of `p` is either empty or agrees with `g`. -/
def carvedFrom (p g : SudokuGrid) : Prop :=
  ∀ r c, getCell p r c = 0 ∨ getCell p r c = getCell g r c

/-- A fixed trivial random tape. -/
def zeroTape : GenTape :=
  ⟨fun _ _ => 0, fun _ _ => 0, fun _ => 0, fun _ => 0⟩

/-- Combination of two optional candidates, preferring the left one on equal
possibility counts (the left argument stands for earlier elements). -/
def minMergePoss : Option HintCell → Option HintCell → Option HintCell
  | none, m => m
  | some h, none => some h
  | some h, some m => if h.2 ≤ m.2 then some h else some m

/-- The scenario grid of the spec: the solved board, whose row 0 starts with
5, with the value 5 also written at row 0, column 3. -/
def scenarioGrid : SudokuGrid := setCell solvedGrid 0 3 5

/-- A 9×9 grid with 9 rows of 9 cells, as the program always builds. -/
def wellShaped (g : SudokuGrid) : Prop :=
  g.length = 9 ∧ ∀ i, i < 9 → (g.getD i []).length = 9

/-!
Foundational lemmas about list indexing and the grid accessors. -/

theorem getD_set_ite {α : Type} (l : List α) (i j : Nat) (v d : α) :
    (l.set i v).getD j d = if i = j ∧ j < l.length then v else l.getD j d := by
  induction l generalizing i j with
  | nil => simp
  | cons a as ih =>
    cases i with
    | zero =>
      cases j with
      | zero => simp
      | succ k => simp
    | succ m =>
      cases j with
      | zero => simp
      | succ k =>
        simp only [List.set_cons_succ, List.getD_cons_succ, List.length_cons]
        rw [ih m k]
        by_cases h : m = k ∧ k < as.length
        · rw [if_pos h, if_pos ⟨by omega, by omega⟩]
        · rw [if_neg h, if_neg (by omega)]

theorem set_getD_self {α : Type} (l : List α) (i : Nat) (d : α) :
    l.set i (l.getD i d) = l := by
  induction l generalizing i with
  | nil => simp
  | cons a as ih =>
    cases i with
    | zero => simp
    | succ m =>
      simp only [List.getD_cons_succ, List.set_cons_succ]
      rw [ih m]

theorem set_of_length_le {α : Type} (l : List α) (i : Nat) (v : α)
    (h : l.length ≤ i) : l.set i v = l := by
  induction l generalizing i with
  | nil => simp
  | cons a as ih =>
    cases i with
    | zero => simp at h
    | succ m =>
      simp only [List.length_cons] at h
      simp [ih m (by omega)]

theorem getD_of_length_le {α : Type} (l : List α) (i : Nat) (d : α)
    (h : l.length ≤ i) : l.getD i d = d := by
  induction l generalizing i with
  | nil => simp
  | cons a as ih =>
    cases i with
    | zero => simp at h
    | succ m =>
      simp only [List.length_cons] at h
      simp only [List.getD_cons_succ]
      exact ih m (by omega)

theorem getCell_setCell (g : SudokuGrid) (a b v r c : Nat) :
    getCell (setCell g a b v) r c =
      if a = r ∧ b = c ∧ r < g.length ∧ c < (g.getD r []).length then v
      else getCell g r c := by
  unfold getCell setCell
  rw [getD_set_ite]
  by_cases ha : a = r ∧ r < g.length
  · obtain ⟨ha1, ha2⟩ := ha
    rw [if_pos ⟨ha1, ha2⟩, getD_set_ite]
    subst ha1
    by_cases hb : b = c ∧ c < (g.getD a []).length
    · rw [if_pos hb, if_pos ⟨rfl, hb.1, ha2, hb.2⟩]
    · rw [if_neg hb, if_neg (by tauto)]
  · rw [if_neg ha, if_neg (by tauto)]

theorem getCell_setCell_cases (g : SudokuGrid) (a b v r c : Nat) :
    getCell (setCell g a b v) r c = v ∨ getCell (setCell g a b v) r c = getCell g r c := by
  rw [getCell_setCell]
  by_cases h : a = r ∧ b = c ∧ r < g.length ∧ c < (g.getD r []).length
  · rw [if_pos h]; exact Or.inl rfl
  · rw [if_neg h]; exact Or.inr rfl

theorem setCell_of_empty (g : SudokuGrid) (r c : Nat) (h : getCell g r c = 0) :
    setCell g r c 0 = g := by
  unfold getCell at h
  unfold setCell
  rw [← h, set_getD_self, set_getD_self]

theorem setCell_setCell (g : SudokuGrid) (r c v w : Nat) :
    setCell (setCell g r c v) r c w = setCell g r c w := by
  unfold setCell
  by_cases hr : r < g.length
  · rw [getD_set_ite, if_pos ⟨rfl, hr⟩, List.set_set, List.set_set]
  · have h1 : ∀ R : List Nat, g.set r R = g := fun R => set_of_length_le g r R (by omega)
    simp only [h1]

theorem setCell_restore (g : SudokuGrid) (r c v : Nat) (h : getCell g r c = 0) :
    setCell (setCell g r c v) r c 0 = g := by
  rw [setCell_setCell, setCell_of_empty g r c h]

theorem mem_allPositions (r c : Nat) : (r, c) ∈ allPositions ↔ r < 9 ∧ c < 9 := by
  simp [allPositions, List.mem_flatMap, List.mem_map, List.mem_range]

theorem findFirstEmpty_eq_none (g : SudokuGrid)
    (h : ∀ p ∈ allPositions, getCell g p.1 p.2 ≠ 0) : findFirstEmpty g = none := by
  unfold findFirstEmpty
  rw [List.find?_eq_none]
  intro p hp
  simpa using h p hp

theorem findFirstEmpty_some (g : SudokuGrid) (r c : Nat)
    (h : findFirstEmpty g = some (r, c)) : getCell g r c = 0 ∧ r < 9 ∧ c < 9 := by
  have hmem := List.mem_of_find?_eq_some h
  have hpred := List.find?_some h
  simp only [beq_iff_eq] at hpred
  exact ⟨hpred, (mem_allPositions r c).1 hmem⟩

theorem mem_findEmptyCells (g : SudokuGrid) (p : Nat × Nat) :
    p ∈ findEmptyCells g ↔ (p.1 < 9 ∧ p.2 < 9) ∧ getCell g p.1 p.2 = 0 := by
  obtain ⟨r, c⟩ := p
  simp [findEmptyCells, List.mem_filter, mem_allPositions]

theorem findEmptyCells_eq_nil (g : SudokuGrid) :
    findEmptyCells g = [] ↔ ∀ p ∈ allPositions, getCell g p.1 p.2 ≠ 0 := by
  unfold findEmptyCells
  rw [List.filter_eq_nil_iff]
  constructor
  · intro h p hp
    have := h p hp
    simpa using this
  · intro h p hp
    simpa using h p hp

/-!
Sufficiency of the counter's fuel: on well-shaped grids, `countGo` computes
the same value for every fuel above the number of empty cells, so the fuel
`numEmptyCells g + 1` used by `countSolutions` is an artifact-free encoding of
the source's unbounded recursion. -/

theorem allPositions_nodup : allPositions.Nodup := by decide

theorem digits_ne_zero : ∀ n ∈ digits, n ≠ 0 := by decide

theorem wellShaped_setCell (g : SudokuGrid) (r c v : Nat) (hw : wellShaped g) :
    wellShaped (setCell g r c v) := by
  obtain ⟨hlen, hrow⟩ := hw
  constructor
  · rw [setCell, List.length_set, hlen]
  · intro i hi
    rw [setCell, getD_set_ite]
    by_cases h : r = i ∧ i < g.length
    · obtain ⟨h1, h2⟩ := h
      rw [if_pos ⟨h1, h2⟩, List.length_set]
      exact hrow r (by omega)
    · rw [if_neg h]
      exact hrow i hi

theorem getCell_setCell_inb (g : SudokuGrid) (a b v : Nat) (hw : wellShaped g)
    (ha : a < 9) (hb : b < 9) (r c : Nat) :
    getCell (setCell g a b v) r c = if a = r ∧ b = c then v else getCell g r c := by
  rw [getCell_setCell]
  obtain ⟨hlen, hrow⟩ := hw
  by_cases h : a = r ∧ b = c
  · obtain ⟨h1, h2⟩ := h
    subst h1
    subst h2
    rw [if_pos ⟨rfl, rfl, by omega, by rw [hrow a ha]; omega⟩, if_pos ⟨rfl, rfl⟩]
  · rw [if_neg (by tauto), if_neg h]

theorem length_filter_flip {α : Type} (x : α) (q q2 : α → Bool)
    (hq : q x = true) (hq2 : q2 x = false) (hagree : ∀ y, y ≠ x → q2 y = q y) :
    ∀ l : List α, l.Nodup → x ∈ l → (l.filter q2).length + 1 = (l.filter q).length := by
  intro l
  induction l with
  | nil => intro _ hx; exact absurd hx (by simp)
  | cons y t ih =>
    intro hnd hx
    rw [List.nodup_cons] at hnd
    rcases List.mem_cons.1 hx with rfl | hxt
    · have hcongr : List.filter q2 t = List.filter q t := by
        apply List.filter_congr
        intro a ha
        exact hagree a (fun hax => hnd.1 (hax ▸ ha))
      rw [List.filter_cons_of_pos hq, List.filter_cons_of_neg (by simp [hq2]), hcongr]
      rfl
    · have hyx : y ≠ x := fun hyx => hnd.1 (hyx ▸ hxt)
      rcases hqy : q y
      · rw [List.filter_cons_of_neg (by rw [hagree y hyx]; simp [hqy]),
          List.filter_cons_of_neg (by simp [hqy])]
        exact ih hnd.2 hxt
      · rw [List.filter_cons_of_pos (by rw [hagree y hyx]; simp [hqy]),
          List.filter_cons_of_pos hqy]
        have := ih hnd.2 hxt
        simp only [List.length_cons]
        omega

theorem numEmptyCells_setCell (g : SudokuGrid) (r c v : Nat) (hw : wellShaped g)
    (hr : r < 9) (hc : c < 9) (h0 : getCell g r c = 0) (hv : v ≠ 0) :
    numEmptyCells (setCell g r c v) + 1 = numEmptyCells g := by
  unfold numEmptyCells findEmptyCells
  apply length_filter_flip (r, c)
  · simp [h0]
  · have : getCell (setCell g r c v) r c = v := by
      rw [getCell_setCell_inb g r c v hw hr hc, if_pos ⟨rfl, rfl⟩]
    simp [this, hv]
  · intro p hp
    have : getCell (setCell g r c v) p.1 p.2 = getCell g p.1 p.2 := by
      rw [getCell_setCell_inb g r c v hw hr hc, if_neg]
      rintro ⟨h1, h2⟩
      exact hp (Prod.ext h1.symm h2.symm)
    simp [this]
  · exact allPositions_nodup
  · exact (mem_allPositions r c).2 ⟨hr, hc⟩

theorem countTry_congr (f1 f2 : SudokuGrid → Nat → Nat) (maxS r c : Nat)
    (g : SudokuGrid) :
    ∀ ns : List Nat, (∀ n ∈ ns, ∀ cnt, f1 (setCell g r c n) cnt = f2 (setCell g r c n) cnt) →
    ∀ count, countTry f1 maxS r c ns g count = countTry f2 maxS r c ns g count := by
  intro ns
  induction ns with
  | nil => intro _ count; rfl
  | cons n rest ih =>
    intro hagree count
    rw [countTry, countTry]
    by_cases hs : isSafe g r c n = true
    · rw [if_pos hs, if_pos hs]
      simp only
      rw [hagree n (List.mem_cons_self n rest) count]
      by_cases hm : maxS ≤ f2 (setCell g r c n) count
      · rw [if_pos hm, if_pos hm]
      · rw [if_neg hm, if_neg hm]
        exact ih (fun m hm2 cnt => hagree m (List.mem_cons_of_mem n hm2) cnt) _
    · rw [if_neg hs, if_neg hs]
      exact ih (fun m hm2 cnt => hagree m (List.mem_cons_of_mem n hm2) cnt) count

theorem countGo_fuel_irrelevant :
    ∀ (k : Nat) (g : SudokuGrid), numEmptyCells g ≤ k → wellShaped g →
      ∀ (maxS count fuel fuel2 : Nat), numEmptyCells g < fuel →
        numEmptyCells g < fuel2 →
        countGo maxS fuel g count = countGo maxS fuel2 g count := by
  intro k
  induction k with
  | zero =>
    intro g hk _ maxS count fuel fuel2 hf hf2
    rcases fuel with _ | f
    · omega
    rcases fuel2 with _ | f2
    · omega
    rw [countGo, countGo]
    by_cases hm : maxS ≤ count
    · rw [if_pos hm, if_pos hm]
    · rw [if_neg hm, if_neg hm]
      rcases hfe : findFirstEmpty g with _ | ⟨r, c⟩
      · rfl
      · obtain ⟨h0, hr, hc⟩ := findFirstEmpty_some g r c hfe
        have : (r, c) ∈ findEmptyCells g := (mem_findEmptyCells g (r, c)).2 ⟨⟨hr, hc⟩, h0⟩
        have hpos : 0 < numEmptyCells g := by
          unfold numEmptyCells
          exact List.length_pos.2 (List.ne_nil_of_mem this)
        omega
  | succ k ih =>
    intro g hk hw maxS count fuel fuel2 hf hf2
    rcases fuel with _ | f
    · omega
    rcases fuel2 with _ | f2
    · omega
    rw [countGo, countGo]
    by_cases hm : maxS ≤ count
    · rw [if_pos hm, if_pos hm]
    · rw [if_neg hm, if_neg hm]
      rcases hfe : findFirstEmpty g with _ | ⟨r, c⟩
      · rfl
      · apply countTry_congr
        intro n hn cnt
        obtain ⟨h0, hr, hc⟩ := findFirstEmpty_some g r c hfe
        have hnum := numEmptyCells_setCell g r c n hw hr hc h0 (digits_ne_zero n hn)
        exact ih (setCell g r c n) (by omega) (wellShaped_setCell g r c n hw)
          maxS cnt f f2 (by omega) (by omega)

/-- On well-shaped grids the fuelled counter agrees with the source's
unbounded recursion: any fuel above the number of empty cells yields
`countSolutions`. -/
theorem countSolutions_eq_countGo (g : SudokuGrid) (hw : wellShaped g)
    (maxS fuel : Nat) (hf : numEmptyCells g < fuel) :
    countGo maxS fuel g 0 = countSolutions g maxS := by
  rw [countSolutions, deepCopyGrid]
  exact countGo_fuel_irrelevant (numEmptyCells g) g (le_refl _) hw maxS 0 fuel
    (numEmptyCells g + 1) hf (by omega)

/-!
Claim C6: the 17-clue early exit of `hasUniqueSolution`. -/

/-- C6: `hasUniqueSolution` returns false whenever fewer than 17 cells are
filled (the early return precedes the call of the counter in its definition),
and for at least 17 filled cells it returns true iff `countSolutions(grid, 2)`
is exactly 1. -/
theorem c6_hasUniqueSolution_spec (g : SudokuGrid) :
    (9 * 9 - (findEmptyCells g).length < 17 → hasUniqueSolution g = false) ∧
    (17 ≤ 9 * 9 - (findEmptyCells g).length →
      (hasUniqueSolution g = true ↔ countSolutions g 2 = 1)) := by
  simp only [hasUniqueSolution]
  constructor
  · intro h
    rw [if_pos h]
  · intro h
    rw [if_neg (by omega)]
    simp [beq_iff_eq]

/-- Witness for C6: the empty board has 0 < 17 clues and is rejected outright;
the fixed solved grid has 81 ≥ 17 clues and exactly one (its own) solution. -/
theorem c6_witness :
    hasUniqueSolution createEmptyBoard = false ∧ hasUniqueSolution solvedGrid = true := by
  constructor
  · exact (c6_hasUniqueSolution_spec createEmptyBoard).1 (by decide)
  · exact ((c6_hasUniqueSolution_spec solvedGrid).2 (by decide)).2 (by decide)

/-!
Claim C10: the solver restores the grid on failure. -/

theorem solveTry_restore (f : SudokuGrid → Bool × SudokuGrid) (r c : Nat)
    (hf : ∀ g g2, f g = (false, g2) → g2 = g) :
    ∀ (ns : List Nat) (g g2 : SudokuGrid), getCell g r c = 0 →
      solveTry f r c ns g = (false, g2) → g2 = g := by
  intro ns
  induction ns with
  | nil =>
    intro g g2 _ h
    simp only [solveTry, Prod.mk.injEq] at h
    exact h.2.symm
  | cons n rest ih =>
    intro g g2 h0 h
    rw [solveTry] at h
    by_cases hs : isSafe g r c n = true
    · rw [if_pos hs] at h
      simp only at h
      by_cases hres : (f (setCell g r c n)).1 = true
      · rw [if_pos hres] at h
        rw [h] at hres
        simp at hres
      · rw [if_neg hres] at h
        have hmk : f (setCell g r c n) = (false, (f (setCell g r c n)).2) := by
          rw [← Prod.mk.eta (p := f (setCell g r c n))]
          simp only [Bool.not_eq_true] at hres
          rw [hres]
        have h2 : (f (setCell g r c n)).2 = setCell g r c n := hf _ _ hmk
        rw [h2, setCell_restore g r c n h0] at h
        exact ih g g2 h0 h
    · rw [if_neg hs] at h
      exact ih g g2 h0 h

theorem solveGo_restore (rand : SudokuGrid → Nat → Nat) :
    ∀ (fuel : Nat) (g g2 : SudokuGrid), solveGo rand fuel g = (false, g2) → g2 = g := by
  intro fuel
  induction fuel with
  | zero =>
    intro g g2 h
    simp only [solveGo, Prod.mk.injEq] at h
    exact h.2.symm
  | succ fuel ih =>
    intro g g2 h
    rw [solveGo] at h
    rcases hfe : findFirstEmpty g with _ | ⟨r, c⟩
    · rw [hfe] at h
      simp at h
    · rw [hfe] at h
      simp only at h
      have h0 := (findFirstEmpty_some g r c hfe).1
      exact solveTry_restore _ r c ih _ g g2 h0 h

/-- C10: whenever `solveSudoku` reports failure — by exhausted search or by
the depth ceiling — the grid it hands back is exactly the grid it was given:
every tentatively placed cell has been cleared again. -/
theorem c10_solveSudoku_restores (rand : SudokuGrid → Nat → Nat)
    (g : SudokuGrid) (depth : Nat) (g2 : SudokuGrid)
    (h : solveSudoku rand g depth = (false, g2)) : g2 = g :=
  solveGo_restore rand (1001 - depth) g g2 h

/-- Witness for C10: a concrete failing search hands back its input grid. -/
theorem c10_witness :
    solveSudoku (fun _ _ => 0) failGrid 0 = (false, failGrid) ∧ failGrid = failGrid := by
  have h : solveSudoku (fun _ _ => 0) failGrid 0 = (false, failGrid) := by decide
  exact ⟨h, c10_solveSudoku_restores (fun _ _ => 0) failGrid 0 failGrid h⟩

/-!
Claims C1 and C9: invariants of the carving loops. -/

theorem carvedFrom_refl (g : SudokuGrid) : carvedFrom g g :=
  fun _ _ => Or.inr rfl

theorem carvedFrom_setCell_zero (p g : SudokuGrid) (a b : Nat)
    (hp : carvedFrom p g) : carvedFrom (setCell p a b 0) g := by
  intro r c
  rcases getCell_setCell_cases p a b 0 r c with h | h
  · exact Or.inl h
  · rw [h]
    exact hp r c

theorem removeLoop_carved (cellsToRemove : Nat) (g : SudokuGrid) :
    ∀ (ps : List (Nat × Nat)) (p : SudokuGrid) (removed attempts : Nat),
      carvedFrom p g →
      carvedFrom (removeLoop cellsToRemove ps p removed attempts).1 g := by
  intro ps
  induction ps with
  | nil => intro p removed attempts hp; exact hp
  | cons pos rest ih =>
    intro p removed attempts hp
    simp only [removeLoop]
    split
    · exact hp
    · split
      · split
        · split
          · exact ih _ _ _ (carvedFrom_setCell_zero p g pos.1 pos.2 hp)
          · exact ih _ _ _ hp
        · exact ih _ _ _ hp
      · exact ih _ _ _ hp

theorem symLoop_carved (cellsToRemove : Nat) (g : SudokuGrid) :
    ∀ (ps : List (Nat × Nat)) (p : SudokuGrid) (removed : Nat),
      carvedFrom p g →
      carvedFrom (symLoop cellsToRemove ps p removed) g := by
  intro ps
  induction ps with
  | nil => intro p removed hp; exact hp
  | cons pos rest ih =>
    intro p removed hp
    simp only [symLoop]
    split
    · exact hp
    · split
      · split
        · exact ih _ _
            (carvedFrom_setCell_zero _ g _ _ (carvedFrom_setCell_zero p g _ _ hp))
        · exact ih _ _ hp
      · exact ih _ _ hp

theorem removeSymmetricCells_carved (g : SudokuGrid) (clues : Nat) (rands : Nat → Nat) :
    carvedFrom (removeSymmetricCells g clues rands) g :=
  symLoop_carved _ g _ g 0 (carvedFrom_refl g)

theorem removeCells_carved (g : SudokuGrid) (clues : Nat) (posRands symRands : Nat → Nat) :
    carvedFrom (removeCells g clues posRands symRands) g := by
  rw [removeCells]
  split
  · exact removeSymmetricCells_carved g clues symRands
  · exact removeLoop_carved _ g _ g 0 0 (carvedFrom_refl g)

theorem generateAttempt_ok (t : GenTape) (difficulty : String)
    (pair : SudokuGrid × SudokuGrid) (h : generateAttempt t difficulty = .ok pair) :
    carvedFrom pair.1 pair.2 := by
  obtain ⟨p1, p2⟩ := pair
  rcases hcfg : DIFFICULTY_CONFIGS difficulty with _ | config
  · rw [generateAttempt, hcfg] at h
    exact Except.noConfusion h
  · simp only [generateAttempt, hcfg, deepCopyGrid, Except.ok.injEq, Prod.mk.injEq] at h
    obtain ⟨h1, h2⟩ := h
    subst h1
    subst h2
    dsimp only
    exact removeCells_carved _ config.clues t.posRand t.symRand

theorem generateLoop_matches (tapes : Nat → GenTape) (difficulty : String)
    (maxRetries : Nat) :
    ∀ (rem attempt : Nat) (lastError : Option String),
      puzzleMatchesSolution (generateLoop tapes difficulty maxRetries rem attempt lastError) := by
  intro rem
  induction rem with
  | zero => intro attempt lastError; exact trivial
  | succ rem ih =>
    intro attempt lastError
    rw [generateLoop]
    rcases hat : generateAttempt (tapes attempt) difficulty with e | pair
    · exact ih (attempt + 1) (some e)
    · exact generateAttempt_ok _ _ pair hat

/-- C9: every pair successfully returned by `generatePuzzle` agrees on the
clues — each puzzle cell is 0 or equals the corresponding solution cell. -/
theorem c9_generatePuzzle_matches (tapes : Nat → GenTape) (difficulty : String)
    (maxRetries : Nat) :
    puzzleMatchesSolution (generatePuzzle tapes difficulty maxRetries) :=
  generateLoop_matches tapes difficulty maxRetries maxRetries 1 none

theorem complete_of_isPuzzleComplete (g : SudokuGrid) (h : isPuzzleComplete g = true) :
    ∀ p ∈ allPositions, getCell g p.1 p.2 ≠ 0 := by
  simp only [isPuzzleComplete, Bool.and_eq_true, List.all_eq_true] at h
  intro p hp
  have := h.1 p hp
  simpa using this

theorem countSolutions_of_complete (g : SudokuGrid)
    (h : ∀ p ∈ allPositions, getCell g p.1 p.2 ≠ 0) : countSolutions g 2 = 1 := by
  rw [countSolutions, deepCopyGrid, countGo]
  rw [if_neg (by omega), findFirstEmpty_eq_none g h]

theorem hasUniqueSolution_of_complete (g : SudokuGrid)
    (h : ∀ p ∈ allPositions, getCell g p.1 p.2 ≠ 0) : hasUniqueSolution g = true := by
  simp only [hasUniqueSolution]
  rw [(findEmptyCells_eq_nil g).2 h]
  rw [if_neg (by norm_num), countSolutions_of_complete g h]
  rfl

theorem hasUniqueSolution_elim (g : SudokuGrid) (h : hasUniqueSolution g = true) :
    countSolutions g 2 = 1 ∧ 17 ≤ 9 * 9 - (findEmptyCells g).length := by
  simp only [hasUniqueSolution] at h
  by_cases hlt : 9 * 9 - (findEmptyCells g).length < 17
  · rw [if_pos hlt] at h
    exact absurd h (by simp)
  · rw [if_neg hlt] at h
    exact ⟨by simpa [beq_iff_eq] using h, by omega⟩

theorem removeLoop_unique (cellsToRemove : Nat) :
    ∀ (ps : List (Nat × Nat)) (p : SudokuGrid) (removed attempts : Nat),
      hasUniqueSolution p = true →
      hasUniqueSolution (removeLoop cellsToRemove ps p removed attempts).1 = true := by
  intro ps
  induction ps with
  | nil => intro p removed attempts hp; exact hp
  | cons pos rest ih =>
    intro p removed attempts hp
    simp only [removeLoop]
    split
    · exact hp
    · split
      · split
        case isTrue hu =>
          split
          · exact ih _ _ _ hu
          · exact ih _ _ _ hp
        case isFalse hu => exact ih _ _ _ hp
      · exact ih _ _ _ hp

theorem symLoop_unique (cellsToRemove : Nat) :
    ∀ (ps : List (Nat × Nat)) (p : SudokuGrid) (removed : Nat),
      hasUniqueSolution p = true →
      hasUniqueSolution (symLoop cellsToRemove ps p removed) = true := by
  intro ps
  induction ps with
  | nil => intro p removed hp; exact hp
  | cons pos rest ih =>
    intro p removed hp
    simp only [symLoop]
    split
    · exact hp
    · split
      · split
        case isTrue hu => exact ih _ _ hu
        case isFalse hu => exact ih _ _ hp
      · exact ih _ _ hp

theorem removeSymmetricCells_unique (g : SudokuGrid) (clues : Nat) (rands : Nat → Nat)
    (h : isPuzzleComplete g = true) :
    hasUniqueSolution (removeSymmetricCells g clues rands) = true :=
  symLoop_unique _ _ g 0
    (hasUniqueSolution_of_complete g (complete_of_isPuzzleComplete g h))

theorem removeCells_unique (g : SudokuGrid) (clues : Nat) (posRands symRands : Nat → Nat)
    (h : isPuzzleComplete g = true) :
    hasUniqueSolution (removeCells g clues posRands symRands) = true := by
  rw [removeCells]
  split
  · exact removeSymmetricCells_unique g clues symRands h
  · exact removeLoop_unique _ _ g 0 0
      (hasUniqueSolution_of_complete g (complete_of_isPuzzleComplete g h))

/-- C1: starting from a complete valid solution grid, any grid produced by
`removeCells` — and any grid produced by its fallback `removeSymmetricCells` —
for any target clue count and any random order has exactly one completion
(`countSolutions(puzzle, 2) = 1`) and keeps at least 17 clues. -/
theorem c1_carving_keeps_uniqueness (g : SudokuGrid) (clues : Nat)
    (posRands symRands symRands2 : Nat → Nat) (h : isPuzzleComplete g = true) :
    (countSolutions (removeCells g clues posRands symRands) 2 = 1 ∧
      17 ≤ 9 * 9 - (findEmptyCells (removeCells g clues posRands symRands)).length) ∧
    (countSolutions (removeSymmetricCells g clues symRands2) 2 = 1 ∧
      17 ≤ 9 * 9 - (findEmptyCells (removeSymmetricCells g clues symRands2)).length) :=
  ⟨hasUniqueSolution_elim _ (removeCells_unique g clues posRands symRands h),
   hasUniqueSolution_elim _ (removeSymmetricCells_unique g clues symRands2 h)⟩

/-- Witness for C1 at the fixed solved grid and the expert clue target. -/
theorem c1_witness :
    (countSolutions (removeCells solvedGrid 22 (fun _ => 0) (fun _ => 0)) 2 = 1 ∧
      17 ≤ 9 * 9 -
        (findEmptyCells (removeCells solvedGrid 22 (fun _ => 0) (fun _ => 0))).length) ∧
    (countSolutions (removeSymmetricCells solvedGrid 22 (fun _ => 1)) 2 = 1 ∧
      17 ≤ 9 * 9 -
        (findEmptyCells (removeSymmetricCells solvedGrid 22 (fun _ => 1))).length) :=
  c1_carving_keeps_uniqueness solvedGrid 22 (fun _ => 0) (fun _ => 0) (fun _ => 1)
    (by decide)

/-!
Claim C3: behaviour of `generatePuzzle` on an unrecognized difficulty. -/

theorem generateAttempt_invalid (t : GenTape) (difficulty : String)
    (hd : DIFFICULTY_CONFIGS difficulty = none) :
    generateAttempt t difficulty = .error ("Invalid difficulty level: " ++ difficulty) := by
  rw [generateAttempt, hd]

theorem generateLoop_invalid (tapes : Nat → GenTape) (difficulty : String)
    (maxRetries : Nat) (hd : DIFFICULTY_CONFIGS difficulty = none) :
    ∀ (rem attempt : Nat) (lastError : Option String),
      generateLoop tapes difficulty maxRetries rem attempt lastError =
        .error ⟨difficulty, maxRetries,
          if rem = 0 then lastError.getD "Unknown error"
          else "Invalid difficulty level: " ++ difficulty⟩ := by
  intro rem
  induction rem with
  | zero => intro attempt lastError; rfl
  | succ rem ih =>
    intro attempt lastError
    rw [generateLoop, generateAttempt_invalid (tapes attempt) difficulty hd]
    dsimp only
    rw [ih]
    rcases rem with _ | rem
    · simp
    · simp

/-- C3 (amended): an unrecognized difficulty does not fail immediately — the
configuration error is caught by the retry loop like any other failure, each
attempt re-detects it, and after `maxRetries` recorded attempts
`generatePuzzle` fails with the terminal error carrying the difficulty, the
attempt count, and the invalid-difficulty cause. -/
theorem c3_invalid_difficulty_is_retried (tapes : Nat → GenTape) (difficulty : String)
    (maxRetries : Nat) (hd : DIFFICULTY_CONFIGS difficulty = none) :
    generatePuzzle tapes difficulty maxRetries =
      .error ⟨difficulty, maxRetries,
        if maxRetries = 0 then "Unknown error"
        else "Invalid difficulty level: " ++ difficulty⟩ :=
  generateLoop_invalid tapes difficulty maxRetries hd maxRetries 1 none

/-- Counterexample to C3 as stated: calling `generatePuzzle` with the
unrecognized difficulty `"nightmare"` and 3 allowed attempts does not surface
an immediate configuration failure; it returns the terminal exhaustion error
whose recorded attempt count is 3 — the configuration error was caught and
retried on every attempt. -/
theorem c3_counterexample :
    generatePuzzle (fun _ => zeroTape) "nightmare" 3 =
      .error ⟨"nightmare", 3, "Invalid difficulty level: nightmare"⟩ ∧
    ∀ f : GenFailure,
      generatePuzzle (fun _ => zeroTape) "nightmare" 3 = .error f → f.attempts = 3 := by
  have h1 : generatePuzzle (fun _ => zeroTape) "nightmare" 3 =
      .error ⟨"nightmare", 3, "Invalid difficulty level: nightmare"⟩ := by
    have := c3_invalid_difficulty_is_retried (fun _ => zeroTape) "nightmare" 3 rfl
    simpa using this
  refine ⟨h1, fun f hf => ?_⟩
  rw [h1] at hf
  have := Except.error.inj hf
  rw [← this]

/-- Witness for C3 (amended) at a concrete unrecognized difficulty. -/
theorem c3_witness :
    generatePuzzle (fun _ => zeroTape) "bogus" 2 =
      .error ⟨"bogus", 2, "Invalid difficulty level: bogus"⟩ := by
  have := c3_invalid_difficulty_is_retried (fun _ => zeroTape) "bogus" 2 rfl
  simpa using this

/-!
Claims C7 and C8: the hint selector. -/

theorem head_insertByPoss (x : HintCell) (l : List HintCell) :
    (insertByPoss x l).head? = minMergePoss l.head? (some x) := by
  rcases l with _ | ⟨y, ys⟩
  · rfl
  · rw [insertByPoss]
    by_cases h : x.2 < y.2
    · rw [if_pos h]
      simp only [List.head?_cons, minMergePoss]
      rw [if_neg (by omega)]
    · rw [if_neg h]
      simp only [List.head?_cons, minMergePoss]
      rw [if_pos (by omega)]

theorem firstMinPoss_cons (x : HintCell) (xs : List HintCell) :
    firstMinPoss (x :: xs) = minMergePoss (some x) (firstMinPoss xs) := by
  rw [firstMinPoss]
  rcases firstMinPoss xs with _ | m <;> rfl

theorem minMergePoss_assoc (a b c : Option HintCell) :
    minMergePoss (minMergePoss a b) c = minMergePoss a (minMergePoss b c) := by
  rcases a with _ | a
  · rfl
  · rcases b with _ | b
    · rfl
    · rcases c with _ | c
      · by_cases hab : a.2 ≤ b.2 <;> simp [minMergePoss, hab]
      · by_cases hab : a.2 ≤ b.2 <;> by_cases hbc : b.2 ≤ c.2 <;>
          by_cases hac : a.2 ≤ c.2 <;>
          first
          | (exfalso; omega)
          | simp [minMergePoss, hab, hbc, hac]

theorem head_foldl_insertByPoss :
    ∀ (l : List HintCell) (acc : List HintCell),
      (l.foldl (fun a x => insertByPoss x a) acc).head? =
        minMergePoss acc.head? (firstMinPoss l) := by
  intro l
  induction l with
  | nil =>
    intro acc
    rcases acc with _ | ⟨y, ys⟩ <;> rfl
  | cons x xs ih =>
    intro acc
    rw [List.foldl_cons, ih, head_insertByPoss, firstMinPoss_cons, ← minMergePoss_assoc]

theorem sortByPoss_head (l : List HintCell) :
    (sortByPoss l).head? = firstMinPoss l := by
  rw [sortByPoss, head_foldl_insertByPoss l []]
  rcases firstMinPoss l with _ | m <;> rfl

theorem firstMinPoss_mem (l : List HintCell) :
    ∀ m : HintCell, firstMinPoss l = some m → m ∈ l := by
  induction l with
  | nil => intro m h; exact absurd h (by simp [firstMinPoss])
  | cons x xs ih =>
    intro m h
    rw [firstMinPoss_cons] at h
    rcases hfm : firstMinPoss xs with _ | m2
    · rw [hfm] at h
      simp only [minMergePoss, Option.some.injEq] at h
      rw [← h]
      exact List.mem_cons_self x xs
    · rw [hfm] at h
      simp only [minMergePoss] at h
      by_cases hx : x.2 ≤ m2.2
      · rw [if_pos hx] at h
        simp only [Option.some.injEq] at h
        rw [← h]
        exact List.mem_cons_self x xs
      · rw [if_neg hx] at h
        simp only [Option.some.injEq] at h
        rw [← h]
        exact List.mem_cons_of_mem x (ih m2 hfm)

theorem getHint_eq_selectHintSpec (g sol : SudokuGrid) :
    getHint g sol = selectHintSpec g sol := by
  rw [getHint, selectHintSpec]
  dsimp only
  by_cases he : (findEmptyCells g).isEmpty
  · rw [if_pos he]
    have hnil : findEmptyCells g = [] := by simpa using he
    rw [hnil]
    rfl
  · rw [if_neg he, ← sortByPoss_head]
    rcases hs : sortByPoss ((findEmptyCells g).map (fun cell =>
        (cell, (digits.filter (fun n => isSafe g cell.1 cell.2 n)).length))) with _ | ⟨hc, rest⟩ <;> rfl

/-- C8: the hint returned by `getHint` is the spec's `selectHint` — among the
empty cells it picks the one with the minimal count of safe values, and among
equal-count cells the first one in row-major order (`selectHintSpec` /
`firstMinPoss` pick the first minimum over `findEmptyCells`, which enumerates
row-major; the source's stable sort has the same head). -/
theorem c8_getHint_most_constrained (g sol : SudokuGrid) :
    getHint g sol = selectHintSpec g sol :=
  getHint_eq_selectHintSpec g sol

theorem firstMinPoss_eq_none (l : List HintCell) : firstMinPoss l = none ↔ l = [] := by
  rcases l with _ | ⟨x, xs⟩
  · simp [firstMinPoss]
  · rw [firstMinPoss_cons]
    rcases hfm : firstMinPoss xs with _ | m
    · simp [minMergePoss]
    · by_cases hx : x.2 ≤ m.2 <;> simp [minMergePoss, hx]

theorem selectHintSpec_eq_none (g sol : SudokuGrid) :
    selectHintSpec g sol = none ↔ findEmptyCells g = [] := by
  rw [selectHintSpec]
  split
  case _ hfm =>
    simp only [true_iff]
    have := (firstMinPoss_eq_none _).1 hfm
    rwa [List.map_eq_nil_iff] at this
  case _ m hfm =>
    constructor
    · intro hco
      exact absurd hco (by simp)
    · intro hec
      rw [hec] at hfm
      simp [firstMinPoss] at hfm

theorem selectHintSpec_some (g sol : SudokuGrid) (h : Hint)
    (hh : selectHintSpec g sol = some h) :
    getCell g h.row h.col = 0 ∧ h.value = getCell sol h.row h.col := by
  rw [selectHintSpec] at hh
  split at hh
  case _ hfm => exact absurd hh (by simp)
  case _ m hfm =>
    simp only [Option.some.injEq] at hh
    obtain ⟨cell, hcellmem, hcell⟩ := List.mem_map.1 (firstMinPoss_mem _ m hfm)
    have hm1 : m.1 = cell := by rw [← hcell]
    rw [← hh]
    dsimp only
    refine ⟨?_, rfl⟩
    rw [hm1]
    exact ((mem_findEmptyCells g cell).1 hcellmem).2

/-- C7: `getHint` returns none exactly when no cell is empty, and a returned
hint always sits at an empty cell and carries the solution's value there. -/
theorem c7_getHint_empty_and_value (g sol : SudokuGrid) :
    (getHint g sol = none ↔ findEmptyCells g = []) ∧
    (∀ h : Hint, getHint g sol = some h →
      getCell g h.row h.col = 0 ∧ h.value = getCell sol h.row h.col) := by
  rw [getHint_eq_selectHintSpec g sol]
  exact ⟨selectHintSpec_eq_none g sol, fun h hh => selectHintSpec_some g sol h hh⟩

/-- Witness for C7: a solved grid with one cleared cell yields the hint for
that cell with the solution's value. -/
theorem c7_witness :
    getHint (setCell solvedGrid 0 0 0) solvedGrid = some ⟨0, 0, 5⟩ ∧
    getCell (setCell solvedGrid 0 0 0) 0 0 = 0 ∧ (5 : Nat) = getCell solvedGrid 0 0 := by
  have h : getHint (setCell solvedGrid 0 0 0) solvedGrid = some ⟨0, 0, 5⟩ := by decide
  exact ⟨h, (c7_getHint_empty_and_value (setCell solvedGrid 0 0 0) solvedGrid).2 ⟨0, 0, 5⟩ h⟩

/-!
Claim C5: `validateBoard` reports exactly the cells whose value occurs in
another cell of the same row, column or box. -/

theorem getD_ne_default_lt {α : Type} (l : List α) (i : Nat) (d : α)
    (h : l.getD i d ≠ d) : i < l.length := by
  by_contra hge
  exact h (getD_of_length_le l i d (by omega))

theorem getCell_ne_zero_bounds (g : SudokuGrid) (r c : Nat)
    (h : getCell g r c ≠ 0) : r < g.length ∧ c < (g.getD r []).length := by
  refine ⟨?_, getD_ne_default_lt _ c 0 h⟩
  by_contra hge
  rw [getCell, getD_of_length_le g r [] (by omega)] at h
  simp at h

theorem getCell_clear (g : SudokuGrid) (r c a b : Nat) (hv : getCell g r c ≠ 0) :
    getCell (setCell g r c 0) a b = if r = a ∧ c = b then 0 else getCell g a b := by
  rw [getCell_setCell]
  by_cases h : r = a ∧ c = b
  · obtain ⟨h1, h2⟩ := h
    subst h1
    subst h2
    obtain ⟨hb1, hb2⟩ := getCell_ne_zero_bounds g r c hv
    rw [if_pos ⟨rfl, rfl, hb1, hb2⟩, if_pos ⟨rfl, rfl⟩]
  · rw [if_neg (by tauto), if_neg h]

theorem clear_row_any (g : SudokuGrid) (r c : Nat) (hv : getCell g r c ≠ 0) :
    ((List.range 9).any (fun x => getCell (setCell g r c 0) r x == getCell g r c) = true) ↔
      ∃ x, x < 9 ∧ x ≠ c ∧ getCell g r x = getCell g r c := by
  rw [List.any_eq_true]
  constructor
  · rintro ⟨x, hx, hbeq⟩
    rw [List.mem_range] at hx
    rw [beq_iff_eq, getCell_clear g r c r x hv] at hbeq
    by_cases hxc : c = x
    · rw [if_pos ⟨rfl, hxc⟩] at hbeq
      exact absurd hbeq.symm hv
    · rw [if_neg (fun hh => hxc hh.2)] at hbeq
      exact ⟨x, hx, fun he => hxc he.symm, hbeq⟩
  · rintro ⟨x, hx, hxc, hgx⟩
    refine ⟨x, List.mem_range.2 hx, ?_⟩
    rw [beq_iff_eq, getCell_clear g r c r x hv, if_neg (fun hh => hxc hh.2.symm)]
    exact hgx

theorem clear_col_any (g : SudokuGrid) (r c : Nat) (hv : getCell g r c ≠ 0) :
    ((List.range 9).any (fun x => getCell (setCell g r c 0) x c == getCell g r c) = true) ↔
      ∃ x, x < 9 ∧ x ≠ r ∧ getCell g x c = getCell g r c := by
  rw [List.any_eq_true]
  constructor
  · rintro ⟨x, hx, hbeq⟩
    rw [List.mem_range] at hx
    rw [beq_iff_eq, getCell_clear g r c x c hv] at hbeq
    by_cases hxr : r = x
    · rw [if_pos ⟨hxr, rfl⟩] at hbeq
      exact absurd hbeq.symm hv
    · rw [if_neg (fun hh => hxr hh.1)] at hbeq
      exact ⟨x, hx, fun he => hxr he.symm, hbeq⟩
  · rintro ⟨x, hx, hxr, hgx⟩
    refine ⟨x, List.mem_range.2 hx, ?_⟩
    rw [beq_iff_eq, getCell_clear g r c x c hv, if_neg (fun hh => hxr hh.1.symm)]
    exact hgx

theorem clear_box_any (g : SudokuGrid) (r c : Nat) (hv : getCell g r c ≠ 0) :
    ((List.range 3).any (fun i => (List.range 3).any (fun j =>
        getCell (setCell g r c 0) (r - r % 3 + i) (c - c % 3 + j) == getCell g r c)) = true) ↔
      ∃ i j, i < 3 ∧ j < 3 ∧ (r - r % 3 + i ≠ r ∨ c - c % 3 + j ≠ c) ∧
        getCell g (r - r % 3 + i) (c - c % 3 + j) = getCell g r c := by
  rw [List.any_eq_true]
  constructor
  · rintro ⟨i, hi, hinner⟩
    rw [List.mem_range] at hi
    rw [List.any_eq_true] at hinner
    obtain ⟨j, hj, hbeq⟩ := hinner
    rw [List.mem_range] at hj
    rw [beq_iff_eq, getCell_clear g r c (r - r % 3 + i) (c - c % 3 + j) hv] at hbeq
    by_cases hcen : r = r - r % 3 + i ∧ c = c - c % 3 + j
    · rw [if_pos hcen] at hbeq
      exact absurd hbeq.symm hv
    · rw [if_neg hcen] at hbeq
      refine ⟨i, j, hi, hj, ?_, hbeq⟩
      by_cases h1 : r - r % 3 + i = r
      · exact Or.inr (fun h2 => hcen ⟨h1.symm, h2.symm⟩)
      · exact Or.inl h1
  · rintro ⟨i, j, hi, hj, hne, hgx⟩
    refine ⟨i, List.mem_range.2 hi, ?_⟩
    rw [List.any_eq_true]
    refine ⟨j, List.mem_range.2 hj, ?_⟩
    have hnot : ¬(r = r - r % 3 + i ∧ c = c - c % 3 + j) := by
      rintro ⟨h1, h2⟩
      rcases hne with h | h
      · exact h h1.symm
      · exact h h2.symm
    rw [beq_iff_eq, getCell_clear g r c (r - r % 3 + i) (c - c % 3 + j) hv, if_neg hnot]
    exact hgx

theorem isSafe_eq_false_iff (g : SudokuGrid) (r c v : Nat) (hv : v ≠ 0) :
    isSafe g r c v = false ↔
      ((List.range 9).any (fun x => getCell g r x == v) = true ∨
       (List.range 9).any (fun x => getCell g x c == v) = true ∨
       (List.range 3).any (fun i => (List.range 3).any (fun j =>
         getCell g (r - r % 3 + i) (c - c % 3 + j) == v)) = true) := by
  simp only [isSafe]
  rw [if_neg hv]
  by_cases h1 : (List.range 9).any (fun x => getCell g r x == v) = true
  · simp [h1]
  · rw [if_neg h1]
    by_cases h2 : (List.range 9).any (fun x => getCell g x c == v) = true
    · simp [h1, h2]
    · rw [if_neg h2]
      by_cases h3 : (List.range 3).any (fun i => (List.range 3).any (fun j =>
          getCell g (r - r % 3 + i) (c - c % 3 + j) == v)) = true
      · simp [h1, h2, h3]
      · simp [h1, h2, h3]

theorem mem_validateBoard_conflicts (g : SudokuGrid) (r c : Nat) :
    (r, c) ∈ (validateBoard g).conflicts ↔ (r < 9 ∧ c < 9) ∧ conflictSpec g r c := by
  simp only [validateBoard]
  rw [List.mem_filter]
  constructor
  · rintro ⟨hmem, hpred⟩
    have hb := (mem_allPositions r c).1 hmem
    simp only [Bool.and_eq_true, bne_iff_ne, ne_eq, Bool.not_eq_true'] at hpred
    obtain ⟨hv, hsafe⟩ := hpred
    refine ⟨hb, hv, ?_⟩
    rcases (isSafe_eq_false_iff _ r c _ hv).1 hsafe with h | h | h
    · exact Or.inl ((clear_row_any g r c hv).1 h)
    · exact Or.inr (Or.inl ((clear_col_any g r c hv).1 h))
    · exact Or.inr (Or.inr ((clear_box_any g r c hv).1 h))
  · rintro ⟨⟨hr, hc⟩, hv, hdisj⟩
    refine ⟨(mem_allPositions r c).2 ⟨hr, hc⟩, ?_⟩
    simp only [Bool.and_eq_true, bne_iff_ne, ne_eq, Bool.not_eq_true']
    refine ⟨hv, ?_⟩
    apply (isSafe_eq_false_iff _ r c _ hv).2
    rcases hdisj with h | h | h
    · exact Or.inl ((clear_row_any g r c hv).2 h)
    · exact Or.inr (Or.inl ((clear_col_any g r c hv).2 h))
    · exact Or.inr (Or.inr ((clear_box_any g r c hv).2 h))

/-- C5: the conflict set of `validateBoard` holds exactly the in-range filled
positions whose value occurs in another cell of the same row, column or box
(both members of a conflicting pair individually); `isValid` is true iff the
set is empty; and on the scenario grid (a solved board with 5 at both (0,0)
and (0,3)) the result is invalid with both positions reported. -/
theorem c5_validateBoard_conflicts :
    (∀ (g : SudokuGrid) (r c : Nat),
      ((r, c) ∈ (validateBoard g).conflicts ↔ (r < 9 ∧ c < 9) ∧ conflictSpec g r c) ∧
      ((validateBoard g).isValid = true ↔ (validateBoard g).conflicts = [])) ∧
    ((validateBoard scenarioGrid).isValid = false ∧
      (0, 0) ∈ (validateBoard scenarioGrid).conflicts ∧
      (0, 3) ∈ (validateBoard scenarioGrid).conflicts) := by
  refine ⟨fun g r c => ⟨mem_validateBoard_conflicts g r c, ?_⟩, by decide, by decide, by decide⟩
  simp only [validateBoard, List.isEmpty_iff]

